import Mathlib

/-!
# Verification of the task-dashboard state core (`src/pages/Index.tsx`)

A shallow embedding of the state-management core of the clinical task
dashboard: the Task Store (task list plus selected task), the Generation
Cache (a JS `Map` from task id to generated content, edit buffer and
approval flag, embedded as an ordered association list), and the three
orchestrator operations (`fetchTasks`, `generateContentForTask`,
`handleExecuteAll`) together with the pure handlers `handleApprove` and
`handleContentEdit`.

Network calls are modelled by passing the backend's response (or its
absence, for a failure) as an explicit argument; toast notifications and
the success modal are modelled as explicit outputs.
-/

namespace IndexPage

/-- A recommendation card, one element of a non-textual preview
(`{ title, description, link? }` in the source). -/
structure RecommendationCard where
  title : String
  description : String
  link : Option String
deriving DecidableEq, Repr

/-- The `content` field of `PreviewContent`: in the source it is
`string | Array<{title; description; link?}>`. -/
inductive ContentBody where
  | text (s : String)
  | cards (items : List RecommendationCard)
deriving DecidableEq, Repr

/-- Embedding of `PreviewContent` from the source: a type label plus a body. -/
structure PreviewContent where
  type : String
  content : ContentBody
deriving DecidableEq, Repr

/-- Embedding of `GeneratedTask` from the source: the per-task generation record. -/
structure GeneratedTask where
  taskId : String
  content : PreviewContent
  editedContent : Option String
  approved : Bool
deriving DecidableEq, Repr

/-- Embedding of `Task` from the source (frontend task with derived id). -/
structure Task where
  id : String
  title : String
  type : String
  prompt : String
deriving DecidableEq, Repr

/-- Embedding of `ApiTask` from the source: a raw backend task, carrying no id. -/
structure ApiTask where
  type : String
  title : String
  prompt : String
deriving DecidableEq, Repr

/-- The Generation Cache: the JS `Map<string, GeneratedTask>` embedded as
its ordered list of values (JS `Map` iteration order is insertion order,
and `set` on an existing key keeps its position). -/
def Cache : Type := List GeneratedTask
deriving DecidableEq, Repr

instance : Membership GeneratedTask Cache := inferInstanceAs (Membership GeneratedTask (List GeneratedTask))

/-- Embedding of `map.get(id)`: the first (in a well-formed cache, only) record whose
`taskId` is `id`. -/
def Cache.get (c : Cache) (id : String) : Option GeneratedTask :=
  List.find? (fun g => g.taskId = id) c

/-- Embedding of `map.has(id)`. -/
def Cache.has (c : Cache) (id : String) : Bool :=
  (c.get id).isSome

/-- Embedding of `map.set(id, g)`: replace the record at key `id` in place, or append
when the key is absent (JS `Map.set` semantics). -/
def Cache.set (c : Cache) (id : String) (g : GeneratedTask) : Cache :=
  match c with
  | [] => [g]
  | x :: xs => if x.taskId = id then g :: xs else x :: Cache.set xs id g

/-- Embedding of `Array.from(map.values())`: the cache's records in order. -/
def Cache.values (c : Cache) : List GeneratedTask := c

/-- The state held by the `Tasks` component: the task list, the selected
task, the generation cache, and the executed-count shown by the success
modal. -/
structure AppState where
  tasks : List Task
  selectedTask : Option Task
  generatedTasks : Cache
  executedTasksCount : Nat
deriving DecidableEq, Repr

/-- Embedding of `handleApprove`, at the record level: flip the approval flag of the
record for `id`; no-op when no record exists (the source reads the record
with `get` and returns early on `undefined`). -/
def toggleApproval (c : Cache) (id : String) : Cache :=
  match c.get id with
  | none => c
  | some r => c.set id { r with approved := !r.approved }

/-- Embedding of `handleContentEdit(taskId, newContent)`: overwrite the edit buffer of
the existing record; leave the cache unchanged when no record exists. -/
def editContent (c : Cache) (id : String) (text : String) : Cache :=
  match c.get id with
  | none => c
  | some r => c.set id { r with editedContent := some text }

/-- The edit buffer seeded on generation success:
`typeof content === "string" ? content : undefined`. -/
def seedEditBuffer : ContentBody → Option String
  | ContentBody.text s => some s
  | ContentBody.cards _ => none

/-- The cache update performed by `generateContentForTask` on a successful
response `data`: unconditionally `set` a fresh record for the task. -/
def applyGenerateSuccess (c : Cache) (taskId : String) (data : PreviewContent) : Cache :=
  c.set taskId
    { taskId := taskId
      content := data
      editedContent := seedEditBuffer data.content
      approved := false }

/-- Outcome of one `generateContentForTask` invocation: the resulting
cache and task list, and how many error toasts were raised. -/
structure GenerateOutcome where
  generatedTasks : Cache
  tasks : List Task
  errorToasts : Nat
deriving DecidableEq, Repr

/-- Embedding of `generateContentForTask(task)`, with the backend generate response
passed explicitly: `some data` for a successful call, `none` for a network
rejection or non-ok response.  On success the fresh record is stored; on
failure nothing is written and one error toast is shown. -/
def generateContentForTask (st : AppState) (task : Task)
    (response : Option PreviewContent) : GenerateOutcome :=
  match response with
  | some data =>
      { generatedTasks := applyGenerateSuccess st.generatedTasks task.id data
        tasks := st.tasks
        errorToasts := 0 }
  | none =>
      { generatedTasks := st.generatedTasks
        tasks := st.tasks
        errorToasts := 1 }

/-- The normalisation step of `fetchTasks`:
`apiData.map((t, idx) => ({ id: task-(idx+1), title, type, prompt }))`. -/
def normaliseTasks (apiData : List ApiTask) : List Task :=
  apiData.enum.map fun p =>
    { id := "task-" ++ toString (p.1 + 1)
      title := p.2.title
      type := p.2.type
      prompt := p.2.prompt }

/-- The state update of `fetchTasks` on a successful response `apiData`:
replace the list with the normalised tasks, then select the first entry
when the new list is non-empty and nothing was selected. -/
def fetchTasksSuccess (st : AppState) (apiData : List ApiTask) : AppState :=
  let normalised := normaliseTasks apiData
  { st with
    tasks := normalised
    selectedTask :=
      match st.selectedTask, normalised with
      | none, t :: _ => some t
      | sel, _ => sel }

/-- One `{ taskType, content }` element of the batch payload:
`taskType` is `tasks.find(t => t.id === genTask.taskId)?.type` (absent when
no matching task exists) and `content` is
`genTask.editedContent || genTask.content.content` — JS `||` falls through
to the original body when the edit buffer is the empty string. -/
structure BatchItem where
  taskType : Option String
  content : ContentBody
deriving DecidableEq, Repr

/-- The body of the `execute-batch` request:
`{ tasks: tasksPayload, executedAt: new Date().toISOString() }`. -/
structure BatchRequest where
  tasks : List BatchItem
  executedAt : String
deriving DecidableEq, Repr

/-- Embedding of `genTask.editedContent || genTask.content.content`: the edit buffer
unless it is absent or the empty string (both falsy in JS), else the
original body. -/
def payloadContent (editBuffer : Option String) (body : ContentBody) : ContentBody :=
  match editBuffer with
  | some s => if s = "" then body else ContentBody.text s
  | none => body

/-- Embedding of `tasksToExecute.map(genTask => (.. taskType, content ..))` from
`handleExecuteAll`. -/
def mkBatchPayload (tasks : List Task) (tasksToExecute : List GeneratedTask) :
    List BatchItem :=
  tasksToExecute.map fun g =>
    { taskType := (List.find? (fun t => t.id = g.taskId) tasks).map Task.type
      content := payloadContent g.editedContent g.content.content }

/-- The user-visible outcome of one `handleExecuteAll` invocation. -/
inductive ExecNotice where
  | noTasksToExecute
  | executeFailed
  | successModal (count : Nat)
deriving DecidableEq, Repr

/-- Result of one `handleExecuteAll` invocation: the new state, the batch
request issued (if any), and the notification raised. -/
structure ExecuteOutcome where
  state : AppState
  request : Option BatchRequest
  notice : ExecNotice
deriving DecidableEq, Repr

/-- Embedding of `handleExecuteAll`, with the backend outcome passed explicitly
(`backendOk = true` for an ok response) and the client timestamp as `now`.
With no approved record: an error toast, no request, no state change.
Otherwise one batch request is issued; on success the executed count is
recorded, every task that has a cache record is dropped from the list
(`prev.filter(task => !generatedTasks.has(task.id))`), the whole cache is
replaced by `new Map()`, and the success modal is shown; on failure the
state is unchanged and an error toast is raised.  `selectedTask` is never
written. -/
def handleExecuteAll (st : AppState) (backendOk : Bool) (now : String) :
    ExecuteOutcome :=
  let tasksToExecute := st.generatedTasks.values.filter fun t => t.approved
  if tasksToExecute.isEmpty then
    { state := st, request := none, notice := ExecNotice.noTasksToExecute }
  else
    let req : BatchRequest :=
      { tasks := mkBatchPayload st.tasks tasksToExecute, executedAt := now }
    if backendOk then
      { state :=
          { st with
            executedTasksCount := tasksToExecute.length
            tasks := st.tasks.filter fun task => !st.generatedTasks.has task.id
            generatedTasks := ([] : Cache) }
        request := some req
        notice := ExecNotice.successModal tasksToExecute.length }
    else
      { state := st, request := some req, notice := ExecNotice.executeFailed }

/-- The records gathered by `handleExecuteAll`:
`Array.from(generatedTasks.values()).filter(t => t.approved)`. -/
def approvedRecords (st : AppState) : List GeneratedTask :=
  st.generatedTasks.values.filter fun t => t.approved

/-- The batch-payload element as the amended claim words it: `content` is
the edit buffer when it is present and non-empty, otherwise the original
`GeneratedContent` body (spec-side formulation, to be compared with
`mkBatchPayload`). -/
def amendedBatchItem (tasks : List Task) (g : GeneratedTask) : BatchItem :=
  { taskType := (List.find? (fun t => t.id = g.taskId) tasks).map Task.type
    content :=
      match g.editedContent with
      | some s => if s ≠ "" then ContentBody.text s else g.content.content
      | none => g.content.content }

/-! ## Concrete example data (used by witnesses and counterexamples) -/

/-- A textual preview. -/
def emailContent : PreviewContent :=
  { type := "Email Draft", content := ContentBody.text "Dear parent, session summary attached." }

/-- A card-list preview (no edit buffer is seeded for these). -/
def referralContent : PreviewContent :=
  { type := "Nearby Specialists"
    content := ContentBody.cards
      [{ title := "Bondi Physiotherapy Centre"
         description := "2.1km from the patient"
         link := some "mailto:referrals@bondiphysio.example" }] }

/-- An approved record for `task-1`. -/
def recApproved : GeneratedTask :=
  { taskId := "task-1", content := emailContent
    editedContent := some "Dear parent, session summary attached."
    approved := true }

/-- An unapproved record for `task-2`. -/
def recUnapproved : GeneratedTask :=
  { taskId := "task-2", content := referralContent
    editedContent := none, approved := false }

/-- The task with id `task-1`. -/
def taskOne : Task :=
  { id := "task-1", title := "Send session note to parent"
    type := "send_email", prompt := "Email session summary to the parents." }

/-- The task with id `task-2`. -/
def taskTwo : Task :=
  { id := "task-2", title := "Refer patient to physiotherapist"
    type := "write_referral_letter", prompt := "Send referral letter." }

/-- A state with one approved and one unapproved record, `task-1`
selected. -/
def stTwoRecords : AppState :=
  { tasks := [taskOne, taskTwo], selectedTask := some taskOne
    generatedTasks := [recApproved, recUnapproved], executedTasksCount := 0 }

/-- An approved record for `task-1` whose edit buffer was cleared to the
empty string by the user. -/
def recEmptyEdit : GeneratedTask :=
  { taskId := "task-1"
    content := { type := "Email Draft", content := ContentBody.text "orig" }
    editedContent := some "", approved := true }

/-- A state whose single approved record has an empty edit buffer. -/
def stEmptyEdit : AppState :=
  { tasks := [taskOne], selectedTask := none
    generatedTasks := [recEmptyEdit], executedTasksCount := 0 }

/-- A state with a record in the cache but nothing approved. -/
def stNoApproved : AppState :=
  { tasks := [taskOne, taskTwo], selectedTask := some taskTwo
    generatedTasks := [recUnapproved], executedTasksCount := 0 }

/-- The empty initial state. -/
def stEmpty : AppState :=
  { tasks := [], selectedTask := none, generatedTasks := ([] : Cache)
    executedTasksCount := 0 }

/-- A one-element backend list response. -/
def apiOne : List ApiTask :=
  [{ type := "send_email", title := "Email labs", prompt := "Send the lab results." }]

/-! ## Association-list lemmas for the cache embedding -/

/-- A record returned by `get id` has `taskId = id`. -/
theorem Cache.taskId_of_get {c : Cache} {id : String} {r : GeneratedTask}
    (h : Cache.get c id = some r) : r.taskId = id := by
  have := List.find?_some h
  simpa using this

/-- Reading back the key just written. -/
theorem Cache.get_set_self (c : Cache) (id : String) (g : GeneratedTask)
    (hg : g.taskId = id) : Cache.get (Cache.set c id g) id = some g := by
  induction c with
  | nil => simp [Cache.set, Cache.get, List.find?, hg]
  | cons x xs ih =>
    by_cases hx : x.taskId = id
    · simp [Cache.set, hx, Cache.get, List.find?, hg]
    · simpa [Cache.set, hx, Cache.get, List.find?] using ih

/-- Writing a key twice keeps only the second write. -/
theorem Cache.set_set (c : Cache) (id : String) (g g' : GeneratedTask)
    (hg : g.taskId = id) :
    Cache.set (Cache.set c id g) id g' = Cache.set c id g' := by
  induction c with
  | nil => simp [Cache.set, hg]
  | cons x xs ih =>
    by_cases hx : x.taskId = id
    · simp [Cache.set, hx, hg]
    · simp [Cache.set, hx, ih]

/-- Writing back the record already stored is a no-op. -/
theorem Cache.set_get_eq (c : Cache) (id : String) (r : GeneratedTask)
    (h : Cache.get c id = some r) : Cache.set c id r = c := by
  induction c with
  | nil => simp [Cache.get, List.find?] at h
  | cons x xs ih =>
    by_cases hx : x.taskId = id
    · have hxr : x = r := by
        simpa [Cache.get, List.find?, hx] using h
      subst hxr
      simp [Cache.set, hx]
    · have h' : Cache.get xs id = some r := by
        simpa [Cache.get, List.find?, hx] using h
      simp [Cache.set, hx, ih h']

/-- Writing key `id` does not change the value at any other key. -/
theorem Cache.get_set_ne (c : Cache) (id j : String) (g : GeneratedTask)
    (hg : g.taskId = id) (hj : j ≠ id) :
    Cache.get (Cache.set c id g) j = Cache.get c j := by
  have hji : ¬ (id = j) := fun h => hj h.symm
  induction c with
  | nil => simp [Cache.set, Cache.get, List.find?, hg, hji]
  | cons x xs ih =>
    by_cases hx : x.taskId = id
    · simp [Cache.set, hx, Cache.get, List.find?, hg, hji]
    · by_cases hxj : x.taskId = j
      · simp [Cache.set, hx, Cache.get, List.find?, hxj, hji, hj]
      · simpa [Cache.set, hx, Cache.get, List.find?, hxj, hji, hj] using ih

/-- Any stored record is found by `get` at its own id. -/
theorem Cache.get_isSome_of_mem {c : Cache} {g : GeneratedTask}
    (hmem : g ∈ c) : (Cache.get c g.taskId).isSome := by
  rw [Cache.get, List.find?_isSome]
  exact ⟨g, hmem, by simp⟩

/-- Unfolding `toggleApproval` when a record exists. -/
theorem toggleApproval_eq_of_get {c : Cache} {id : String} {r : GeneratedTask}
    (h : Cache.get c id = some r) :
    toggleApproval c id = Cache.set c id { r with approved := !r.approved } := by
  unfold toggleApproval
  rw [h]

/-- Unfolding `editContent` when a record exists. -/
theorem editContent_eq_of_get {c : Cache} {id : String} {r : GeneratedTask}
    (text : String) (h : Cache.get c id = some r) :
    editContent c id text = Cache.set c id { r with editedContent := some text } := by
  unfold editContent
  rw [h]

/-! ## Claim theorems -/

/-- C7: for every cache and task id, applying `toggleApproval` twice for
that id returns the cache to its original state; with an existing record
the approval flag is flipped (and flipped back), and with no record each
call is a no-op. -/
theorem toggleApproval_double_restores (c : Cache) (id : String) :
    toggleApproval (toggleApproval c id) id = c
    ∧ (Cache.get c id = none → toggleApproval c id = c)
    ∧ (∀ r, Cache.get c id = some r →
        Cache.get (toggleApproval c id) id = some { r with approved := !r.approved }) := by
  rcases h : Cache.get c id with _ | r
  · exact ⟨by simp [toggleApproval, h], fun _ => by simp [toggleApproval, h],
      fun r hr => by simp [h] at hr⟩
  · obtain ⟨tid, cont, eb, ap⟩ := r
    have hid : tid = id := Cache.taskId_of_get h
    subst hid
    have h1 : toggleApproval c tid = Cache.set c tid ⟨tid, cont, eb, !ap⟩ := by
      simp [toggleApproval, h]
    have hget1 : Cache.get (toggleApproval c tid) tid = some ⟨tid, cont, eb, !ap⟩ := by
      rw [h1]; exact Cache.get_set_self c tid _ rfl
    refine ⟨?_, fun hnone => by simp [h] at hnone, fun r' hr' => ?_⟩
    · have h2 : toggleApproval (toggleApproval c tid) tid
          = Cache.set (toggleApproval c tid) tid ⟨tid, cont, eb, !(!ap)⟩ :=
        toggleApproval_eq_of_get hget1
      rw [h2, h1, Bool.not_not, Cache.set_set c tid _ _ rfl]
      exact Cache.set_get_eq c tid _ h
    · have hr : r' = ⟨tid, cont, eb, ap⟩ := (Option.some.inj hr').symm
      subst hr
      exact hget1

/-- Witness for C7: on a concrete cache holding one record, the double
toggle restores the cache, and a single toggle flips the stored flag. -/
theorem toggleApproval_double_restores_witness :
    toggleApproval (toggleApproval [recApproved] "task-1") "task-1" = [recApproved]
    ∧ Cache.get (toggleApproval [recApproved] "task-1") "task-1"
        = some { recApproved with approved := !recApproved.approved } := by
  have h := toggleApproval_double_restores [recApproved] "task-1"
  exact ⟨h.1, h.2.2 recApproved (by rfl)⟩

/-- C8: `editContent id text` overwrites only the edit buffer of the
record for `id` (its content and approval flag are kept), leaves every
other id's record unchanged, and is a no-op when no record exists for
`id`. -/
theorem editContent_frame (c : Cache) (id : String) (text : String) :
    (Cache.get c id = none → editContent c id text = c)
    ∧ (∀ r, Cache.get c id = some r →
        Cache.get (editContent c id text) id
          = some { r with editedContent := some text })
    ∧ (∀ j, j ≠ id → Cache.get (editContent c id text) j = Cache.get c j) := by
  rcases h : Cache.get c id with _ | r
  · exact ⟨fun _ => by simp [editContent, h], fun r hr => by simp [h] at hr,
      fun j _ => by simp [editContent, h]⟩
  · have hid : r.taskId = id := Cache.taskId_of_get h
    have h1 : editContent c id text = Cache.set c id { r with editedContent := some text } := by
      simp [editContent, h]
    refine ⟨fun hnone => by simp [h] at hnone, fun r' hr' => ?_, fun j hj => ?_⟩
    · have hr : r' = r := (Option.some.inj hr').symm
      subst hr
      rw [h1]; exact Cache.get_set_self c id _ hid
    · rw [h1]; exact Cache.get_set_ne c id j _ hid hj

/-- Witness for C8: on a concrete two-record cache, editing `task-1`
rewrites its buffer and leaves `task-2` untouched; editing a missing id is
a no-op. -/
theorem editContent_frame_witness :
    Cache.get (editContent [recApproved, recUnapproved] "task-1" "new text") "task-1"
      = some { recApproved with editedContent := some "new text" }
    ∧ Cache.get (editContent [recApproved, recUnapproved] "task-1" "new text") "task-2"
      = Cache.get [recApproved, recUnapproved] "task-2"
    ∧ editContent [recApproved, recUnapproved] "task-9" "new text"
      = [recApproved, recUnapproved] := by
  have h := editContent_frame [recApproved, recUnapproved] "task-1" "new text"
  have h9 := editContent_frame [recApproved, recUnapproved] "task-9" "new text"
  exact ⟨h.2.1 recApproved (by rfl), h.2.2 "task-2" (by decide), h9.1 (by rfl)⟩

/-- C10: a successful re-generation for a task unconditionally overwrites
any existing record with a fresh one — approval reset to `false`, edit
buffer re-seeded from the new content — whatever the prior cache held. -/
theorem generate_success_overwrites (st : AppState) (task : Task)
    (data : PreviewContent) :
    Cache.get (generateContentForTask st task (some data)).generatedTasks task.id
      = some { taskId := task.id, content := data
               editedContent := seedEditBuffer data.content, approved := false } := by
  show Cache.get (applyGenerateSuccess st.generatedTasks task.id data) task.id = _
  exact Cache.get_set_self _ _ _ rfl

/-- C6: a failed generate call (network rejection or non-ok response)
creates no record: the cache and task list are identical to their
pre-operation values, and exactly one error notification is shown. -/
theorem generate_failure_frame (st : AppState) (task : Task) :
    (generateContentForTask st task none).generatedTasks = st.generatedTasks
    ∧ (generateContentForTask st task none).tasks = st.tasks
    ∧ (generateContentForTask st task none).errorToasts = 1 :=
  ⟨rfl, rfl, rfl⟩

/-- C5: invoking the batch execution with zero approved records leaves the
whole state (Task Store and Generation Cache included) unchanged, raises
the no-approved-tasks notification, and issues no batch request. -/
theorem handleExecuteAll_no_approved (st : AppState) (backendOk : Bool)
    (now : String) (h : ∀ g ∈ st.generatedTasks, g.approved = false) :
    handleExecuteAll st backendOk now
      = { state := st, request := none, notice := ExecNotice.noTasksToExecute } := by
  have hfilter : st.generatedTasks.values.filter (fun t => t.approved) = [] := by
    rw [List.filter_eq_nil_iff]
    intro a ha
    simp [h a ha]
  simp [handleExecuteAll, hfilter]

/-- Witness for C5: on a concrete state whose only record is unapproved,
execution changes nothing and raises the notification. -/
theorem handleExecuteAll_no_approved_witness :
    handleExecuteAll stNoApproved true "2024-03-12T14:00:00Z"
      = { state := stNoApproved, request := none
          notice := ExecNotice.noTasksToExecute } :=
  handleExecuteAll_no_approved stNoApproved true "2024-03-12T14:00:00Z" (by decide)

/-- C2 fails on the code: after a successful batch execution that removes
the selected task `task-1` from the list, the selection still points at
it — `handleExecuteAll` never writes `selectedTask`. -/
theorem executeAll_selection_counterexample :
    (handleExecuteAll stTwoRecords true "2024-03-12T14:00:00Z").state.selectedTask
      = some taskOne
    ∧ "task-1" ∉
        ((handleExecuteAll stTwoRecords true "2024-03-12T14:00:00Z").state.tasks.map Task.id) := by
  exact ⟨rfl, by decide⟩

/-- C2 amended: a batch execution leaves the selection unchanged — in
particular, a selected task that was removed from the list remains
selected rather than being cleared. -/
theorem handleExecuteAll_preserves_selection (st : AppState) (backendOk : Bool)
    (now : String) :
    (handleExecuteAll st backendOk now).state.selectedTask = st.selectedTask := by
  by_cases h1 : (st.generatedTasks.values.filter fun t => t.approved).isEmpty
  · simp [handleExecuteAll, h1]
  · cases backendOk <;> simp [handleExecuteAll, h1]

/-- C1 fails on the code: with approved id set S = {task-1} and an
unapproved record for task-2, a successful execution also removes task-2
from the Task Store and drops the unapproved record from the cache. -/
theorem executeAll_exact_removal_counterexample :
    Cache.get stTwoRecords.generatedTasks "task-2" = some recUnapproved
    ∧ recUnapproved.approved = false
    ∧ "task-2" ∉
        ((handleExecuteAll stTwoRecords true "2024-03-12T14:00:00Z").state.tasks.map Task.id)
    ∧ Cache.get
        (handleExecuteAll stTwoRecords true "2024-03-12T14:00:00Z").state.generatedTasks
        "task-2" = none := by
  exact ⟨rfl, rfl, by decide, rfl⟩

/-- C1 amended: on a successful batch execution a pre-existing task stays
in the Task Store iff it has no GenerationRecord at all (approved or not),
no other tasks appear, and the Generation Cache is cleared entirely, so
unapproved records are removed along with the approved ones. -/
theorem handleExecuteAll_success_frame (st : AppState) (now : String)
    (h : approvedRecords st ≠ []) :
    (∀ t ∈ st.tasks,
        t ∈ (handleExecuteAll st true now).state.tasks
          ↔ Cache.get st.generatedTasks t.id = none)
    ∧ (∀ t ∈ (handleExecuteAll st true now).state.tasks, t ∈ st.tasks)
    ∧ (∀ id, Cache.get (handleExecuteAll st true now).state.generatedTasks id = none) := by
  have hne : (st.generatedTasks.values.filter fun t => t.approved).isEmpty = false := by
    rcases hcase : st.generatedTasks.values.filter (fun t => t.approved) with _ | ⟨x, xs⟩
    · exact absurd hcase h
    · rw [hcase]
      rfl
  have hstate : (handleExecuteAll st true now).state.tasks
      = st.tasks.filter fun task => !Cache.has st.generatedTasks task.id := by
    simp [handleExecuteAll, hne]
  have hcache : (handleExecuteAll st true now).state.generatedTasks = ([] : Cache) := by
    simp [handleExecuteAll, hne]
  refine ⟨?_, ?_, ?_⟩
  · intro t ht
    rw [hstate]
    constructor
    · intro hmem
      have hflag := (List.mem_filter.mp hmem).2
      simpa [Cache.has, Option.isNone_iff_eq_none] using hflag
    · intro hnone
      exact List.mem_filter.mpr ⟨ht, by simp [Cache.has, hnone]⟩
  · intro t ht
    rw [hstate] at ht
    exact (List.mem_filter.mp ht).1
  · intro id
    rw [hcache]
    rfl

/-- Witness for C1's amended theorem on a concrete two-record state:
`task-1` (which has a record) is gone, and the unapproved `task-2` record
is gone from the cache as well. -/
theorem handleExecuteAll_success_frame_witness :
    approvedRecords stTwoRecords ≠ []
    ∧ (taskOne ∈ (handleExecuteAll stTwoRecords true "2024-03-12T14:00:00Z").state.tasks
        ↔ Cache.get stTwoRecords.generatedTasks "task-1" = none)
    ∧ Cache.get
        (handleExecuteAll stTwoRecords true "2024-03-12T14:00:00Z").state.generatedTasks
        "task-2" = none := by
  have h := handleExecuteAll_success_frame stTwoRecords "2024-03-12T14:00:00Z" (by decide)
  exact ⟨by decide, h.1 taskOne (by decide), h.2.2 "task-2"⟩

/-- C3: after a successful execution over a non-empty approved id set S
(with record ids unique, as the cache embeds a `Map`), no id of S remains
in the Task Store or Generation Cache, and the recorded executed-count is
the cardinality of S. -/
theorem handleExecuteAll_success_removes_approved (st : AppState) (now : String)
    (hnd : (st.generatedTasks.values.map GeneratedTask.taskId).Nodup)
    (h : approvedRecords st ≠ []) :
    (∀ g ∈ approvedRecords st,
        g.taskId ∉ (handleExecuteAll st true now).state.tasks.map Task.id
        ∧ Cache.get (handleExecuteAll st true now).state.generatedTasks g.taskId
            = none)
    ∧ (handleExecuteAll st true now).state.executedTasksCount
        = ((approvedRecords st).map GeneratedTask.taskId).toFinset.card := by
  have hne : (st.generatedTasks.values.filter fun t => t.approved).isEmpty = false := by
    rcases hcase : st.generatedTasks.values.filter (fun t => t.approved) with _ | ⟨x, xs⟩
    · exact absurd hcase h
    · rw [hcase]
      rfl
  have hstate : (handleExecuteAll st true now).state.tasks
      = st.tasks.filter fun task => !Cache.has st.generatedTasks task.id := by
    simp [handleExecuteAll, hne]
  have hcache : (handleExecuteAll st true now).state.generatedTasks = ([] : Cache) := by
    simp [handleExecuteAll, hne]
  have hcount : (handleExecuteAll st true now).state.executedTasksCount
      = (approvedRecords st).length := by
    simp [handleExecuteAll, hne, approvedRecords]
  refine ⟨?_, ?_⟩
  · intro g hg
    have hmem : g ∈ st.generatedTasks.values := (List.mem_filter.mp hg).1
    have happ : (Cache.get st.generatedTasks g.taskId).isSome :=
      Cache.get_isSome_of_mem hmem
    constructor
    · rw [hstate]
      intro hmem'
      obtain ⟨t, ht, hid⟩ := List.mem_map.mp hmem'
      have hflag := (List.mem_filter.mp ht).2
      rw [hid] at hflag
      simp [Cache.has, happ] at hflag
    · rw [hcache]
      rfl
  · have hsub : ((approvedRecords st).map GeneratedTask.taskId).Sublist
        (st.generatedTasks.values.map GeneratedTask.taskId) :=
      List.Sublist.map _ (List.filter_sublist _)
    have hnd2 : ((approvedRecords st).map GeneratedTask.taskId).Nodup :=
      List.Nodup.sublist hsub hnd
    rw [hcount, List.toFinset_card_of_nodup hnd2, List.length_map]

/-- Witness for C3 on a concrete state: the approved id `task-1` is gone
from both structures and the executed count is the cardinality of S. -/
theorem handleExecuteAll_success_removes_approved_witness :
    approvedRecords stTwoRecords ≠ []
    ∧ "task-1" ∉
        (handleExecuteAll stTwoRecords true "2024-03-12T14:00:00Z").state.tasks.map Task.id
    ∧ Cache.get
        (handleExecuteAll stTwoRecords true "2024-03-12T14:00:00Z").state.generatedTasks
        "task-1" = none
    ∧ (handleExecuteAll stTwoRecords true "2024-03-12T14:00:00Z").state.executedTasksCount
        = ((approvedRecords stTwoRecords).map GeneratedTask.taskId).toFinset.card := by
  have h := handleExecuteAll_success_removes_approved stTwoRecords
    "2024-03-12T14:00:00Z" (by decide) (by decide)
  have hg : recApproved ∈ approvedRecords stTwoRecords := by decide
  exact ⟨by decide, (h.1 recApproved hg).1, (h.1 recApproved hg).2, h.2⟩

/-- C4 fails on the code: the single approved record has a present edit
buffer (the empty string, after the user cleared the textarea), yet the
issued payload carries the original body — JS `||` treats the empty
buffer as absent. -/
theorem executeAll_payload_counterexample :
    (handleExecuteAll stEmptyEdit true "2024-03-12T14:00:00Z").request
      = some { tasks := [{ taskType := some "send_email"
                           content := ContentBody.text "orig" }]
               executedAt := "2024-03-12T14:00:00Z" }
    ∧ recEmptyEdit.editedContent = some ""
    ∧ recEmptyEdit.approved = true
    ∧ ContentBody.text "orig" ≠ ContentBody.text "" := by
  exact ⟨rfl, rfl, rfl, by decide⟩

/-- C4 amended: with at least one approved record, one batch request is
issued whose payload is the ordered list of `{ taskType, content }` pairs
over the approved records, where `content` is the edit buffer when it is
present and non-empty and otherwise the original body, together with the
client-side execution timestamp. -/
theorem handleExecuteAll_payload (st : AppState) (backendOk : Bool) (now : String)
    (h : approvedRecords st ≠ []) :
    (handleExecuteAll st backendOk now).request
      = some { tasks := (approvedRecords st).map (amendedBatchItem st.tasks)
               executedAt := now } := by
  have hne : (st.generatedTasks.values.filter fun t => t.approved).isEmpty = false := by
    rcases hcase : st.generatedTasks.values.filter (fun t => t.approved) with _ | ⟨x, xs⟩
    · exact absurd hcase h
    · rw [hcase]
      rfl
  have hmap : mkBatchPayload st.tasks (approvedRecords st)
      = (approvedRecords st).map (amendedBatchItem st.tasks) := by
    unfold mkBatchPayload
    apply List.map_congr_left
    intro g _
    unfold amendedBatchItem payloadContent
    rcases g.editedContent with _ | s
    · rfl
    · by_cases hs : s = "" <;> simp [hs]
  have hmap' : (approvedRecords st).map (amendedBatchItem st.tasks)
      = mkBatchPayload st.tasks (st.generatedTasks.values.filter fun t => t.approved) :=
    hmap.symm
  rw [hmap']
  cases backendOk <;> simp [handleExecuteAll, hne]

/-- Witness for C4's amended theorem at a concrete state with one
approved record whose edit buffer is empty. -/
theorem handleExecuteAll_payload_witness :
    approvedRecords stEmptyEdit ≠ []
    ∧ (handleExecuteAll stEmptyEdit false "2024-03-12T14:00:00Z").request
        = some { tasks := (approvedRecords stEmptyEdit).map (amendedBatchItem stEmptyEdit.tasks)
                 executedAt := "2024-03-12T14:00:00Z" } :=
  ⟨by decide, handleExecuteAll_payload stEmptyEdit false "2024-03-12T14:00:00Z" (by decide)⟩

/-- C9: a successful task-list fetch replaces the stored list by the
backend array mapped in order to tasks with positional ids
`task-<index+1>`, and when nothing was selected beforehand the first
entry of the new list (if any) becomes selected; an existing selection is
kept. -/
theorem fetchTasksSuccess_spec (st : AppState) (apiData : List ApiTask) :
    (fetchTasksSuccess st apiData).tasks.length = apiData.length
    ∧ (∀ i (hi : i < apiData.length),
        (fetchTasksSuccess st apiData).tasks[i]?
          = some { id := "task-" ++ toString (i + 1)
                   title := apiData[i].title
                   type := apiData[i].type
                   prompt := apiData[i].prompt })
    ∧ (st.selectedTask = none →
        (fetchTasksSuccess st apiData).selectedTask
          = (fetchTasksSuccess st apiData).tasks.head?)
    ∧ (∀ t, st.selectedTask = some t →
        (fetchTasksSuccess st apiData).selectedTask = some t) := by
  have htasks : (fetchTasksSuccess st apiData).tasks = normaliseTasks apiData := rfl
  refine ⟨?_, ?_, ?_, ?_⟩
  · rw [htasks]
    simp [normaliseTasks]
  · intro i hi
    rw [htasks]
    unfold normaliseTasks
    simp [List.getElem?_map, List.getElem?_enum, List.getElem?_eq_getElem hi]
  · intro hsel
    rw [htasks]
    unfold fetchTasksSuccess
    rcases hn : normaliseTasks apiData with _ | ⟨t, ts⟩ <;> simp [hsel, hn]
  · intro t hsel
    unfold fetchTasksSuccess
    rcases hn : normaliseTasks apiData with _ | ⟨u, us⟩ <;> simp [hsel, hn]

/-- Witness for C9 at the empty state and a one-element backend response:
the single stored task gets id `task-1` and becomes selected. -/
theorem fetchTasksSuccess_spec_witness :
    (fetchTasksSuccess stEmpty apiOne).tasks[0]?
      = some { id := "task-1", title := "Email labs", type := "send_email"
               prompt := "Send the lab results." }
    ∧ (fetchTasksSuccess stEmpty apiOne).selectedTask
        = (fetchTasksSuccess stEmpty apiOne).tasks.head? := by
  have h := fetchTasksSuccess_spec stEmpty apiOne
  refine ⟨?_, h.2.2.1 rfl⟩
  have h0 := h.2.1 0 (by decide)
  exact h0

end IndexPage
